import Mathlib

/-!
Shallow embedding of the bank-management-system core
(src/scripts/models.py, src/scripts/services.py, src/scripts/auth_system.py).

Modelling conventions:
* Python floats for money are embedded as `ℚ` (exact arithmetic; the claims
  under scrutiny do not depend on binary rounding).
* Timestamps are ISO-8601 strings in the source and are compared
  lexicographically there (`sorted(..., key=lambda x: x.created_at)`); we keep
  them as `String` with its lexicographic linear order.
* `uuid.uuid4()` and `datetime.now()` are effects; they enter each operation
  as explicit arguments (`txId`, `now`).
* Python `dict` is embedded as an association list `List (String × α)` with
  `findKey` (first match), `updMap` (replace in place, else append — exactly
  the semantics of `d[k] = v`) and `removeKey` (Python `del d[k]`).
* Methods that `raise ValueError` are embedded as `Except BankError`.
-/

namespace Bank

/-- Transaction record, mirroring `Transaction.__init__` in models.py. -/
structure Transaction where
  transaction_id : String
  account_id : String
  transaction_type : String
  amount : ℚ
  balance_after : ℚ
  description : String
  timestamp : String
  reference_account : Option String
deriving DecidableEq, Repr

/-- Account record, mirroring `Account.__init__` in models.py.
The field values are the constructor arguments; `transactions` starts empty. -/
structure Account where
  account_id : String
  customer_id : String
  account_type : String
  balance : ℚ
  status : String
  created_date : String
  transactions : List Transaction
deriving DecidableEq, Repr

/-- Customer record, mirroring `Customer.__init__` in models.py.  The
`_accounts` back-reference list is derived state, relinked on load and never
serialized (`Customer.to_dict` omits it), so it is not part of the record. -/
structure Customer where
  customer_id : String
  name : String
  email : String
  phone : String
  address : String
  created_date : String
deriving DecidableEq, Repr

/-- User record, mirroring `User.__init__` in models.py / the `User`
dataclass in auth_system.py. -/
structure User where
  user_id : String
  username : String
  email : String
  password_hash : String
  role : String
  full_name : String
  phone : String
  is_active : Bool
  created_date : String
  last_login : Option String
  customer_id : Option String
deriving DecidableEq, Repr

/-- Error outcomes of the ledger operations: `ValueError("... must be
positive")`, `ValueError("Insufficient funds")`, `ValueError("... not
found")`. -/
inductive BankError where
  | invalidAmount : BankError
  | insufficientFunds : BankError
  | notFound : BankError
deriving DecidableEq, Repr

/-- First-match lookup in an association list; embeds `d.get(k)` / `k in d`
on a Python dict (keys are unique in a dict, so first match is the match). -/
def findKey (k : String) : List (String × α) → Option α
  | [] => none
  | (k₂, v) :: rest => if k₂ = k then some v else findKey k rest

/-- Embeds Python `d[k] = v`: replace the value at an existing key in place,
otherwise append the new key at the end (dict insertion order). -/
def updMap (m : List (String × α)) (k : String) (v : α) : List (String × α) :=
  match m with
  | [] => [(k, v)]
  | (k₂, v₂) :: rest => if k₂ = k then (k, v) :: rest else (k₂, v₂) :: updMap rest k v

/-- Embeds Python `del d[k]` (remove the entry with key `k`). -/
def removeKey (m : List (String × α)) (k : String) : List (String × α) :=
  match m with
  | [] => []
  | (k₂, v₂) :: rest => if k₂ = k then rest else (k₂, v₂) :: removeKey rest k

/-- Account.deposit (models.py lines 353-368): reject `amount <= 0`, add to
the balance, append a "deposit" transaction carrying the new balance. -/
def Account.deposit (a : Account) (txId now : String) (amount : ℚ)
    (description : String) : Except BankError (Account × Transaction) :=
  if amount ≤ 0 then .error .invalidAmount
  else
    let newBal := a.balance + amount
    let t : Transaction :=
      { transaction_id := txId, account_id := a.account_id,
        transaction_type := "deposit", amount := amount,
        balance_after := newBal, description := description,
        timestamp := now, reference_account := none }
    .ok ({ a with balance := newBal, transactions := a.transactions ++ [t] }, t)

/-- Account.withdraw (models.py lines 370-387): reject `amount <= 0`, then
reject `amount > balance` with "Insufficient funds", else subtract and append
a "withdraw" transaction carrying the new balance. -/
def Account.withdraw (a : Account) (txId now : String) (amount : ℚ)
    (description : String) : Except BankError (Account × Transaction) :=
  if amount ≤ 0 then .error .invalidAmount
  else if a.balance < amount then .error .insufficientFunds
  else
    let newBal := a.balance - amount
    let t : Transaction :=
      { transaction_id := txId, account_id := a.account_id,
        transaction_type := "withdraw", amount := amount,
        balance_after := newBal, description := description,
        timestamp := now, reference_account := none }
    .ok ({ a with balance := newBal, transactions := a.transactions ++ [t] }, t)

/-- Descending-timestamp comparison used by `get_transaction_history`
(`sorted(..., key=lambda x: x.created_at, reverse=True)`). -/
def tsGe (x y : Transaction) : Prop := y.timestamp ≤ x.timestamp

instance : DecidableRel tsGe := fun x y => by
  unfold tsGe; infer_instance

instance : IsTotal Transaction tsGe :=
  ⟨fun x y => (le_total y.timestamp x.timestamp)⟩

instance : IsTrans Transaction tsGe :=
  ⟨fun _ _ _ h₁ h₂ => le_trans h₂ h₁⟩

/-- Python truthiness of the `limit: int = None` argument, as used in
`transactions[:limit] if limit else transactions`: `None` and `0` are falsy. -/
def limitTruthy : Option Nat → Bool
  | none => false
  | some n => n != 0

/-- Account.get_transaction_history (models.py lines 393-396): stable sort by
timestamp descending (Python sorted with `reverse=True` is stable, as is
insertion sort), then `transactions[:limit] if limit else transactions`. -/
def Account.get_transaction_history (a : Account) (limit : Option Nat) :
    List Transaction :=
  let sorted := List.insertionSort tsGe a.transactions
  if limitTruthy limit then sorted.take (limit.getD 0) else sorted

/-- In-memory state of BankManagementService: `_customers` and `_accounts`
dicts (services.py lines 179-180). -/
structure BankState where
  customers : List (String × Customer)
  accounts : List (String × Account)
deriving DecidableEq, Repr

/-- Zero-padded decimal rendering, for the `f"ACC{n:06d}"` account ids. -/
def zeroPad (w : Nat) (n : Nat) : String :=
  let s := toString n
  String.mk (List.replicate (w - s.length) '0') ++ s

/-- BankManagementService.create_customer (services.py lines 215-222): no
validation at all; builds the Customer from the raw arguments and stores it
under the freshly generated uuid. -/
def BankState.create_customer (s : BankState) (freshId name email phone address
    now : String) : BankState × Customer :=
  let c : Customer :=
    { customer_id := freshId, name := name, email := email, phone := phone,
      address := address, created_date := now }
  ({ s with customers := updMap s.customers freshId c }, c)

/-- BankManagementService.create_account (services.py lines 224-238): fail if
the customer is unknown; allocate id `ACC{len+1:06d}`; construct the Account
with `balance = initial_deposit`; then, if `initial_deposit > 0`, additionally
call `deposit(initial_deposit, "Initial deposit")` on it.  The deposit call
cannot fail there (its guard is `amount <= 0`), so the error branch below is
unreachable. -/
def BankState.create_account (s : BankState) (customer_id account_type : String)
    (initial_deposit : ℚ) (txId now : String) :
    Except BankError (BankState × Account) :=
  match findKey customer_id s.customers with
  | none => .error .notFound
  | some _ =>
    let account_id := "ACC" ++ zeroPad 6 (s.accounts.length + 1)
    let account₀ : Account :=
      { account_id := account_id, customer_id := customer_id,
        account_type := account_type, balance := initial_deposit,
        status := "active", created_date := now, transactions := [] }
    let account :=
      if 0 < initial_deposit then
        match account₀.deposit txId now initial_deposit "Initial deposit" with
        | .ok (a, _) => a
        | .error _ => account₀
      else account₀
    .ok ({ s with accounts := updMap s.accounts account_id account }, account)

/-- BankManagementService.transfer_funds (services.py lines 253-296).  Both
transactions are built from the balances read BEFORE any mutation; then the
source balance is decremented and the destination incremented.  In Python
`from_account` and `to_account` are dict lookups: when the two ids coincide
they alias ONE object, so both the two balance mutations and the two appends
hit that single account — the aliased branch below reproduces exactly that. -/
def BankState.transfer_funds (s : BankState) (from_id to_id : String)
    (amount : ℚ) (description : String) (txId₁ txId₂ now : String) :
    Except BankError (BankState × Transaction × Transaction) :=
  match findKey from_id s.accounts, findKey to_id s.accounts with
  | none, _ => .error .notFound
  | some _, none => .error .notFound
  | some fa, some ta =>
    if fa.balance < amount then .error .insufficientFunds
    else
      let ftx : Transaction :=
        { transaction_id := txId₁, account_id := from_id,
          transaction_type := "transfer_out", amount := amount,
          balance_after := fa.balance - amount,
          description := "Transfer to " ++ to_id ++ ": " ++ description,
          timestamp := now, reference_account := some to_id }
      let ttx : Transaction :=
        { transaction_id := txId₂, account_id := to_id,
          transaction_type := "transfer_in", amount := amount,
          balance_after := ta.balance + amount,
          description := "Transfer from " ++ from_id ++ ": " ++ description,
          timestamp := now, reference_account := some from_id }
      if from_id = to_id then
        let a : Account :=
          { fa with balance := fa.balance - amount + amount,
                    transactions := fa.transactions ++ [ftx, ttx] }
        .ok ({ s with accounts := updMap s.accounts from_id a }, ftx, ttx)
      else
        let fa₂ : Account :=
          { fa with balance := fa.balance - amount,
                    transactions := fa.transactions ++ [ftx] }
        let ta₂ : Account :=
          { ta with balance := ta.balance + amount,
                    transactions := ta.transactions ++ [ttx] }
        .ok ({ s with accounts := updMap (updMap s.accounts from_id fa₂) to_id ta₂ },
             ftx, ttx)

/-- Single ledger operation, as invoked from the UI layer: deposit/withdraw
act on one account found via `get_account`; transfer goes through
`BankState.transfer_funds`.  `uuid`/`now` effects are carried as data. -/
inductive Op where
  | deposit (accountId txId now : String) (amount : ℚ) (description : String)
  | withdraw (accountId txId now : String) (amount : ℚ) (description : String)
  | transfer (fromId toId : String) (amount : ℚ) (description : String)
      (txId₁ txId₂ now : String)
deriving DecidableEq, Repr

/-- Apply one operation to the bank state.  On any raised `ValueError` the
in-memory state is unchanged (Python raises before mutating in all three
operations), which `Except.error` captures. -/
def step (s : BankState) : Op → Except BankError BankState
  | .deposit accountId txId now amount description =>
    match findKey accountId s.accounts with
    | none => .error .notFound
    | some a =>
      match a.deposit txId now amount description with
      | .error e => .error e
      | .ok (a₂, _) => .ok { s with accounts := updMap s.accounts accountId a₂ }
  | .withdraw accountId txId now amount description =>
    match findKey accountId s.accounts with
    | none => .error .notFound
    | some a =>
      match a.withdraw txId now amount description with
      | .error e => .error e
      | .ok (a₂, _) => .ok { s with accounts := updMap s.accounts accountId a₂ }
  | .transfer fromId toId amount description txId₁ txId₂ now =>
    match s.transfer_funds fromId toId amount description txId₁ txId₂ now with
    | .error e => .error e
    | .ok (s₂, _, _) => .ok s₂

/-- Run a sequence of operations, stopping at the first failure. -/
def runOps (s : BankState) : List Op → Except BankError BankState
  | [] => .ok s
  | op :: ops =>
    match step s op with
    | .error e => .error e
    | .ok s₂ => runOps s₂ ops

/-- UserAuthService / AuthSystem in-memory state: the `_users` dict keyed by
username. -/
structure AuthState where
  users : List (String × User)
deriving DecidableEq, Repr

/-- UserAuthService.login (services.py lines 111-125).  SHA-256 is opaque to
the claims, so the hash function is a parameter.  Returns the
`(success, message, user)` triple together with the post-state (on success
`last_login` is updated and persisted). -/
def login (hash : String → String) (st : AuthState) (username password now :
    String) : (Bool × String × Option User) × AuthState :=
  match findKey username st.users with
  | none => ((false, "Invalid username or password", none), st)
  | some u =>
    if !u.is_active then ((false, "Account is deactivated", none), st)
    else if u.password_hash ≠ hash password then
      ((false, "Invalid username or password", none), st)
    else
      let u₂ := { u with last_login := some now }
      ((true, "Login successful", some u₂),
       { st with users := updMap st.users username u₂ })

/-- UserAuthService.update_user_status (services.py lines 158-164): if the
username exists, set the flag and return true; no admin protection. -/
def update_user_status (st : AuthState) (username : String) (is_active : Bool) :
    Bool × AuthState :=
  match findKey username st.users with
  | none => (false, st)
  | some u =>
    (true, { st with users := updMap st.users username { u with is_active := is_active } })

/-- UserAuthService.delete_user (services.py lines 166-172): delete only when
the username exists AND is not "admin". -/
def delete_user (st : AuthState) (username : String) : Bool × AuthState :=
  match findKey username st.users with
  | none => (false, st)
  | some _ =>
    if username = "admin" then (false, st)
    else (true, { st with users := removeKey st.users username })

/-! Serialization (models.py `to_dict` / `from_dict`).  Each dict is embedded
as a structure with exactly the emitted keys.  The `__init__` defaulting
`timestamp or datetime.now().isoformat()` treats the empty string as falsy,
so `from_dict` takes the would-be current time `now` as a parameter. -/

/-- Dictionary emitted by `Transaction.to_dict`. -/
structure TransactionDict where
  transaction_id : String
  account_id : String
  transaction_type : String
  amount : ℚ
  balance_after : ℚ
  description : String
  timestamp : String
  reference_account : Option String
deriving DecidableEq, Repr

/-- Transaction.to_dict (models.py lines 279-289). -/
def Transaction.to_dict (t : Transaction) : TransactionDict :=
  { transaction_id := t.transaction_id, account_id := t.account_id,
    transaction_type := t.transaction_type, amount := t.amount,
    balance_after := t.balance_after, description := t.description,
    timestamp := t.timestamp, reference_account := t.reference_account }

/-- Transaction.from_dict (models.py lines 291-302), going through
`Transaction.__init__` which replaces a falsy timestamp by the current time. -/
def Transaction.from_dict (now : String) (d : TransactionDict) : Transaction :=
  { transaction_id := d.transaction_id, account_id := d.account_id,
    transaction_type := d.transaction_type, amount := d.amount,
    balance_after := d.balance_after, description := d.description,
    timestamp := if d.timestamp = "" then now else d.timestamp,
    reference_account := d.reference_account }

/-- Dictionary emitted by `Customer.to_dict` (the accounts list is omitted). -/
structure CustomerDict where
  customer_id : String
  name : String
  email : String
  phone : String
  address : String
  created_date : String
deriving DecidableEq, Repr

/-- Customer.to_dict (models.py lines 110-118). -/
def Customer.to_dict (c : Customer) : CustomerDict :=
  { customer_id := c.customer_id, name := c.name, email := c.email,
    phone := c.phone, address := c.address, created_date := c.created_date }

/-- Customer.from_dict (models.py lines 120-129); `Customer.__init__` replaces
a falsy created_date by the current time. -/
def Customer.from_dict (now : String) (d : CustomerDict) : Customer :=
  { customer_id := d.customer_id, name := d.name, email := d.email,
    phone := d.phone, address := d.address,
    created_date := if d.created_date = "" then now else d.created_date }

/-- Dictionary emitted by `Account.to_dict`, embedding the transaction list. -/
structure AccountDict where
  account_id : String
  customer_id : String
  account_type : String
  balance : ℚ
  status : String
  created_date : String
  transactions : List TransactionDict
deriving DecidableEq, Repr

/-- Account.to_dict (models.py lines 398-407). -/
def Account.to_dict (a : Account) : AccountDict :=
  { account_id := a.account_id, customer_id := a.customer_id,
    account_type := a.account_type, balance := a.balance, status := a.status,
    created_date := a.created_date,
    transactions := a.transactions.map Transaction.to_dict }

/-- Account.from_dict (models.py lines 409-420): rebuild via the constructor
(falsy created_date replaced by the current time) and re-attach the
deserialized transaction list. -/
def Account.from_dict (now : String) (d : AccountDict) : Account :=
  { account_id := d.account_id, customer_id := d.customer_id,
    account_type := d.account_type, balance := d.balance, status := d.status,
    created_date := if d.created_date = "" then now else d.created_date,
    transactions := d.transactions.map (Transaction.from_dict now) }

/-- Ledger document shape: `{customers: [...], accounts: [...]}` as written by
`BankManagementService._save_data` (services.py lines 207-213). -/
structure LedgerDoc where
  customers : List CustomerDict
  accounts : List AccountDict
deriving DecidableEq, Repr

/-- BankManagementService._save_data: serialize every customer and account. -/
def saveData (s : BankState) : LedgerDoc :=
  { customers := s.customers.map (fun kv => kv.2.to_dict),
    accounts := s.accounts.map (fun kv => kv.2.to_dict) }

/-- BankManagementService._load_data (services.py lines 189-205): rebuild the
two dicts by inserting each deserialized entity under its own id (the
customer-account relinking touches only the derived back-reference list). -/
def loadData (now : String) (doc : LedgerDoc) : BankState :=
  let customers := doc.customers.foldl
    (fun m d => let c := Customer.from_dict now d; updMap m c.customer_id c) []
  let accounts := doc.accounts.foldl
    (fun m d => let a := Account.from_dict now d; updMap m a.account_id a) []
  { customers := customers, accounts := accounts }

/-- Transfers whose source and destination ids differ; deposits and
withdrawals trivially qualify. -/
def Op.distinctTransfer : Op → Prop
  | .transfer fromId toId _ _ _ _ _ => fromId ≠ toId
  | _ => True

instance : DecidablePred Op.distinctTransfer := fun op => by
  cases op <;> simp only [Op.distinctTransfer] <;> infer_instance

/-- Transfers with a non-negative amount argument; deposits and withdrawals
trivially qualify (they guard the amount themselves, transfer does not). -/
def Op.nonNegAmount : Op → Prop
  | .transfer _ _ amount _ _ _ _ => 0 ≤ amount
  | _ => True

instance : DecidablePred Op.nonNegAmount := fun op => by
  cases op <;> simp only [Op.nonNegAmount] <;> infer_instance

/-- The C1 invariant, relative to the starting state `s₀`: every stored
account either carries a non-empty log whose last entry records the current
balance, or is untouched (empty log, balance as in `s₀`). -/
def ledgerConsistentFrom (s₀ s : BankState) : Prop :=
  ∀ id a, findKey id s.accounts = some a →
    (∃ t, a.transactions.getLast? = some t ∧ a.balance = t.balance_after) ∨
    (a.transactions = [] ∧
      ∃ a₀, findKey id s₀.accounts = some a₀ ∧ a.balance = a₀.balance)

/-- Every stored account has a non-negative balance. -/
def nonNegBalances (s : BankState) : Prop :=
  ∀ id a, findKey id s.accounts = some a → 0 ≤ a.balance

/-! Concrete sample data used by witnesses and counterexamples. -/

/-- Sample customer record. -/
def sampleCustomer : Customer :=
  { customer_id := "c1", name := "Alice", email := "alice@example.com",
    phone := "555", address := "1 Main St",
    created_date := "2024-01-01T00:00:00" }

/-- Sample account with balance 100 and an empty transaction log. -/
def acctA : Account :=
  { account_id := "A", customer_id := "c1", account_type := "savings",
    balance := 100, status := "active",
    created_date := "2024-01-01T00:00:00", transactions := [] }

/-- Sample account with balance 0 and an empty transaction log. -/
def acctB : Account :=
  { account_id := "B", customer_id := "c1", account_type := "checking",
    balance := 0, status := "active",
    created_date := "2024-01-01T00:00:00", transactions := [] }

/-- Bank state holding only account `A`. -/
def stA : BankState := { customers := [], accounts := [("A", acctA)] }

/-- Bank state holding accounts `A` and `B`. -/
def stAB : BankState :=
  { customers := [], accounts := [("A", acctA), ("B", acctB)] }

/-- Bank state holding only the sample customer. -/
def stC : BankState := { customers := [("c1", sampleCustomer)], accounts := [] }

/-- Sample transaction (earlier timestamp). -/
def txEarly : Transaction :=
  { transaction_id := "x1", account_id := "A", transaction_type := "deposit",
    amount := 5, balance_after := 5, description := "d",
    timestamp := "2024-01-02T00:00:00", reference_account := none }

/-- Sample transaction (later timestamp). -/
def txLate : Transaction :=
  { transaction_id := "x2", account_id := "A", transaction_type := "deposit",
    amount := 7, balance_after := 12, description := "d",
    timestamp := "2024-01-03T00:00:00", reference_account := none }

/-- Sample account with a single recorded transaction. -/
def acctOneTx : Account :=
  { acctA with balance := 5, transactions := [txEarly] }

/-- Sample account with two recorded transactions. -/
def acctTwoTx : Account :=
  { acctA with balance := 12, transactions := [txEarly, txLate] }

/-- Bank state holding the sample customer together with two accounts, one of
which has a recorded transaction. -/
def stFull : BankState :=
  { customers := [("c1", sampleCustomer)],
    accounts := [("A", acctOneTx), ("B", acctB)] }

/-- Deactivated sample user (the hash function is modelled as `id` in
witnesses, so `password_hash` stores the plain sample password). -/
def inactiveUser : User :=
  { user_id := "u1", username := "bob", email := "bob@example.com",
    password_hash := "pw", role := "customer", full_name := "Bob B",
    phone := "555", is_active := false,
    created_date := "2024-01-01T00:00:00", last_login := none,
    customer_id := none }

/-- Active bootstrap admin user. -/
def adminUser : User :=
  { user_id := "u0", username := "admin", email := "admin@bank.com",
    password_hash := "adminhash", role := "admin",
    full_name := "System Administrator", phone := "555",
    is_active := true, created_date := "2024-01-01T00:00:00",
    last_login := none, customer_id := none }

/-- Auth state holding the admin and one deactivated user. -/
def stAuth : AuthState :=
  { users := [("admin", adminUser), ("bob", inactiveUser)] }

/-! Helper lemmas about the association-list dictionary. -/

theorem findKey_updMap (m : List (String × α)) (k id : String) (v : α) :
    findKey id (updMap m k v) = if k = id then some v else findKey id m := by
  induction m with
  | nil => by_cases h : k = id <;> simp [updMap, findKey, h]
  | cons hd tl ih =>
    obtain ⟨k₂, v₂⟩ := hd
    by_cases h₁ : k₂ = k
    · subst h₁
      by_cases h₂ : k₂ = id <;> simp [updMap, findKey, h₂]
    · by_cases h₂ : k₂ = id
      · subst h₂
        have hki : ¬ k = k₂ := fun h => h₁ h.symm
        simp [updMap, findKey, h₁, hki]
      · simp [updMap, findKey, h₁, h₂, ih]

theorem updMap_of_findKey_none (m : List (String × α)) (k : String) (v : α)
    (h : findKey k m = none) : updMap m k v = m ++ [(k, v)] := by
  induction m with
  | nil => simp [updMap]
  | cons hd tl ih =>
    obtain ⟨k₂, v₂⟩ := hd
    by_cases h₁ : k₂ = k
    · simp [findKey, h₁] at h
    · simp [findKey, h₁] at h
      simp [updMap, h₁, ih h]

theorem findKey_append (m₁ m₂ : List (String × α)) (id : String) :
    findKey id (m₁ ++ m₂) =
      match findKey id m₁ with
      | some v => some v
      | none => findKey id m₂ := by
  induction m₁ with
  | nil => simp [findKey]
  | cons hd tl ih =>
    obtain ⟨k₂, v₂⟩ := hd
    by_cases h₁ : k₂ = id <;> simp [findKey, h₁, ih]

theorem getLast?_append_singleton (l : List α) (a : α) :
    (l ++ [a]).getLast? = some a := by
  induction l with
  | nil => rfl
  | cons hd tl ih =>
    cases h : tl ++ [a] with
    | nil => exact absurd h (by simp)
    | cons b bs => simp_all [List.getLast?]

/-- C2: for distinct pre-existing accounts with sufficient source funds,
`transfer_funds` succeeds; the source loses exactly the amount and gains one
`transfer_out` transaction referencing the destination with `balance_after`
the new source balance; the destination gains the amount and one
`transfer_in` referencing the source with `balance_after` the new destination
balance; every other account and the customer map are untouched. -/
theorem C2_transfer_postconditions (s : BankState) (from_id to_id : String)
    (amount : ℚ) (description txId₁ txId₂ now : String) (fa ta : Account)
    (hne : from_id ≠ to_id)
    (hfa : findKey from_id s.accounts = some fa)
    (hta : findKey to_id s.accounts = some ta)
    (hsuf : amount ≤ fa.balance) :
    ∃ s₂ ftx ttx,
      s.transfer_funds from_id to_id amount description txId₁ txId₂ now =
        .ok (s₂, ftx, ttx) ∧
      findKey from_id s₂.accounts =
        some { fa with balance := fa.balance - amount,
                       transactions := fa.transactions ++ [ftx] } ∧
      findKey to_id s₂.accounts =
        some { ta with balance := ta.balance + amount,
                       transactions := ta.transactions ++ [ttx] } ∧
      ftx.transaction_type = "transfer_out" ∧
      ftx.reference_account = some to_id ∧
      ftx.amount = amount ∧
      ftx.balance_after = fa.balance - amount ∧
      ttx.transaction_type = "transfer_in" ∧
      ttx.reference_account = some from_id ∧
      ttx.amount = amount ∧
      ttx.balance_after = ta.balance + amount ∧
      (∀ id, id ≠ from_id → id ≠ to_id →
        findKey id s₂.accounts = findKey id s.accounts) ∧
      s₂.customers = s.customers := by
  have hlt : ¬ fa.balance < amount := not_lt.mpr hsuf
  unfold BankState.transfer_funds
  rw [hfa, hta]
  simp only [hlt, if_false, hne, if_neg]
  refine ⟨_, _, _, rfl, ?_, ?_, rfl, rfl, rfl, rfl, rfl, rfl, rfl, rfl, ?_, rfl⟩
  · rw [findKey_updMap, if_neg hne.symm, findKey_updMap, if_pos rfl]
  · rw [findKey_updMap, if_pos rfl]
  · intro id h₁ h₂
    rw [findKey_updMap, if_neg (fun h => h₂ h.symm),
        findKey_updMap, if_neg (fun h => h₁ h.symm)]

/-- C2 witness: transfer 30 from `A` (balance 100) to `B` (balance 0) in the
concrete two-account state. -/
theorem C2_transfer_postconditions_witness :
    ∃ s₂ ftx ttx,
      stAB.transfer_funds "A" "B" 30 "d" "x1" "x2" "t1" = .ok (s₂, ftx, ttx) ∧
      findKey "A" s₂.accounts =
        some { acctA with balance := acctA.balance - 30,
                          transactions := acctA.transactions ++ [ftx] } ∧
      findKey "B" s₂.accounts =
        some { acctB with balance := acctB.balance + 30,
                          transactions := acctB.transactions ++ [ttx] } ∧
      ftx.transaction_type = "transfer_out" ∧
      ftx.reference_account = some "B" ∧
      ftx.amount = 30 ∧
      ftx.balance_after = acctA.balance - 30 ∧
      ttx.transaction_type = "transfer_in" ∧
      ttx.reference_account = some "A" ∧
      ttx.amount = 30 ∧
      ttx.balance_after = acctB.balance + 30 ∧
      (∀ id, id ≠ "A" → id ≠ "B" →
        findKey id s₂.accounts = findKey id stAB.accounts) ∧
      s₂.customers = stAB.customers := by
  have h := C2_transfer_postconditions stAB "A" "B" 30 "d" "x1" "x2" "t1"
    acctA acctB (by decide) (by decide) (by decide) (by decide)
  obtain ⟨s₂, ftx, ttx, h₁, h₂⟩ := h
  exact ⟨s₂, ftx, ttx, h₁, h₂⟩

/-- C7: withdrawing strictly more than the (non-negative) balance fails with
the `Insufficient funds` error, both at the `Account.withdraw` level and at
the state level; the `Except.error` outcome carries no mutated account or
state, so balance and transaction list are exactly as before the call (the
source raises before mutating). -/
theorem C7_withdraw_insufficient (s : BankState)
    (accountId txId now description : String) (amount : ℚ) (a : Account)
    (ha : findKey accountId s.accounts = some a)
    (hnn : 0 ≤ a.balance) (hgt : a.balance < amount) :
    a.withdraw txId now amount description = .error .insufficientFunds ∧
    step s (.withdraw accountId txId now amount description) =
      .error .insufficientFunds := by
  have hpos : ¬ amount ≤ 0 := not_le.mpr (lt_of_le_of_lt hnn hgt)
  have hw : a.withdraw txId now amount description =
      .error .insufficientFunds := by
    unfold Account.withdraw
    rw [if_neg hpos, if_pos hgt]
  refine ⟨hw, ?_⟩
  simp only [step, ha, hw]

/-- C7 witness: withdrawing 150 from the concrete account with balance 100. -/
theorem C7_withdraw_insufficient_witness :
    acctA.withdraw "x1" "t1" 150 "d" = .error .insufficientFunds ∧
    step stA (.withdraw "A" "x1" "t1" 150 "d") = .error .insufficientFunds :=
  C7_withdraw_insufficient stA "A" "x1" "t1" "d" 150 acctA
    (by decide) (by decide) (by decide)

/-- C10: `create_customer` is total by type (it returns a plain pair, not an
`Except`); for every input — empty strings and duplicate emails included — it
performs no validation, returns a Customer carrying exactly the given field
values under the fresh id, stores it in the customer map, leaves accounts
untouched, and when the generated id is fresh the map gains exactly one new
entry at the end. -/
theorem C10_create_customer_total (s : BankState)
    (freshId name email phone address now : String) :
    ((s.create_customer freshId name email phone address now).2.customer_id
        = freshId) ∧
    (s.create_customer freshId name email phone address now).2.name = name ∧
    (s.create_customer freshId name email phone address now).2.email = email ∧
    (s.create_customer freshId name email phone address now).2.phone = phone ∧
    ((s.create_customer freshId name email phone address now).2.address
        = address) ∧
    findKey freshId
        (s.create_customer freshId name email phone address now).1.customers =
      some (s.create_customer freshId name email phone address now).2 ∧
    ((s.create_customer freshId name email phone address now).1.accounts
        = s.accounts) ∧
    (findKey freshId s.customers = none →
      (s.create_customer freshId name email phone address now).1.customers =
        s.customers ++
          [(freshId, (s.create_customer freshId name email phone address now).2)]) := by
  refine ⟨rfl, rfl, rfl, rfl, rfl, ?_, rfl, ?_⟩
  · unfold BankState.create_customer
    rw [findKey_updMap, if_pos rfl]
  · intro h
    unfold BankState.create_customer
    exact updMap_of_findKey_none _ _ _ h

/-- C10 witness: creating a customer whose email duplicates the stored
customer's email and whose name is empty still succeeds. -/
theorem C10_create_customer_total_witness :
    ((stC.create_customer "c2" "" "alice@example.com" "" "" "t1").2.customer_id
        = "c2") ∧
    (stC.create_customer "c2" "" "alice@example.com" "" "" "t1").2.name = "" ∧
    ((stC.create_customer "c2" "" "alice@example.com" "" "" "t1").2.email
        = "alice@example.com") ∧
    (stC.create_customer "c2" "" "alice@example.com" "" "" "t1").2.phone = "" ∧
    (stC.create_customer "c2" "" "alice@example.com" "" "" "t1").2.address = "" ∧
    findKey "c2"
        (stC.create_customer "c2" "" "alice@example.com" "" "" "t1").1.customers =
      some (stC.create_customer "c2" "" "alice@example.com" "" "" "t1").2 ∧
    ((stC.create_customer "c2" "" "alice@example.com" "" "" "t1").1.accounts
        = stC.accounts) ∧
    (findKey "c2" stC.customers = none →
      (stC.create_customer "c2" "" "alice@example.com" "" "" "t1").1.customers =
        stC.customers ++
          [("c2", (stC.create_customer "c2" "" "alice@example.com" "" "" "t1").2)]) :=
  C10_create_customer_total stC "c2" "" "alice@example.com" "" "" "t1"

/-- C5 counterexample: logging into a deactivated account yields the message
"Account is deactivated", which differs from the generic "Invalid username or
password" returned for an unknown username — the caller CAN distinguish the
inactive case, contrary to the claim. -/
theorem C5_counterexample_inactive_message_distinct :
    (login id stAuth "bob" "pw" "t1").1.2.1 = "Account is deactivated" ∧
    (login id stAuth "nobody" "pw" "t1").1.2.1 =
      "Invalid username or password" ∧
    (login id stAuth "bob" "pw" "t1").1.2.1 ≠
      (login id stAuth "nobody" "pw" "t1").1.2.1 := by
  refine ⟨rfl, rfl, ?_⟩
  intro h
  simp [login, stAuth, findKey, inactiveUser] at h

/-- C5 amended: unknown-username and wrong-password failures return the
identical generic triple `(false, "Invalid username or password", none)`, so
those two cases are indistinguishable; a deactivated account, however, is
reported with the distinct message "Account is deactivated". -/
theorem C5_amended_login_messages (hash : String → String) (st : AuthState)
    (username password now : String) :
    (findKey username st.users = none →
      (login hash st username password now).1 =
        (false, "Invalid username or password", none)) ∧
    (∀ u, findKey username st.users = some u → u.is_active = true →
      u.password_hash ≠ hash password →
      (login hash st username password now).1 =
        (false, "Invalid username or password", none)) ∧
    (∀ u, findKey username st.users = some u → u.is_active = false →
      (login hash st username password now).1 =
        (false, "Account is deactivated", none)) := by
  refine ⟨?_, ?_, ?_⟩
  · intro h
    simp only [login, h]
  · intro u hu hact hne
    simp only [login, hu, hact, Bool.not_true, Bool.false_eq_true, if_false]
    rw [if_pos hne]
  · intro u hu hact
    simp only [login, hu, hact, Bool.not_false, if_true]

/-- C5 amended witness: the wrong-password case on the active admin user and
the unknown-username case both produce the generic triple; the deactivated
user produces the distinct triple. -/
theorem C5_amended_login_messages_witness :
    ((login id stAuth "nobody" "pw" "t1").1 =
      (false, "Invalid username or password", none)) ∧
    ((login id stAuth "admin" "wrong" "t1").1 =
      (false, "Invalid username or password", none)) ∧
    ((login id stAuth "bob" "pw" "t1").1 =
      (false, "Account is deactivated", none)) := by
  obtain ⟨h₁, h₂, h₃⟩ := C5_amended_login_messages id stAuth "nobody" "pw" "t1"
  obtain ⟨h₄, h₅, h₆⟩ := C5_amended_login_messages id stAuth "admin" "wrong" "t1"
  obtain ⟨h₇, h₈, h₉⟩ := C5_amended_login_messages id stAuth "bob" "pw" "t1"
  exact ⟨h₁ (by decide), h₅ adminUser (by decide) (by decide) (by decide),
    h₉ inactiveUser (by decide) (by decide)⟩

/-- C6 counterexample: `update_user_status("admin", false)` on a store whose
admin is active returns `true` and stores the admin with `is_active = false`
— deactivating the admin is NOT a no-op, contrary to the claim. -/
theorem C6_counterexample_admin_deactivation_succeeds :
    (update_user_status stAuth "admin" false).1 = true ∧
    findKey "admin" (update_user_status stAuth "admin" false).2.users =
      some { adminUser with is_active := false } ∧
    (update_user_status stAuth "admin" false).2 ≠ stAuth := by
  refine ⟨rfl, rfl, ?_⟩
  intro h
  have := congrArg (fun st => findKey "admin" st.users) h
  simp [update_user_status, stAuth, findKey, updMap, adminUser] at this

/-- C6 amended: `delete_user("admin")` returns false and leaves the store
unchanged for EVERY store, but `update_user_status("admin", false)` is not
protected: whenever an admin entry exists it returns true and overwrites the
entry with `is_active = false`. -/
theorem C6_amended_admin_protection (st : AuthState) (u : User)
    (hu : findKey "admin" st.users = some u) :
    delete_user st "admin" = (false, st) ∧
    (update_user_status st "admin" false).1 = true ∧
    findKey "admin" (update_user_status st "admin" false).2.users =
      some { u with is_active := false } := by
  refine ⟨?_, ?_, ?_⟩
  · unfold delete_user
    rw [hu]
    simp
  · simp only [update_user_status, hu]
  · simp only [update_user_status, hu]
    rw [findKey_updMap, if_pos rfl]

/-- C6 amended witness: the concrete auth store with an active admin. -/
theorem C6_amended_admin_protection_witness :
    delete_user stAuth "admin" = (false, stAuth) ∧
    (update_user_status stAuth "admin" false).1 = true ∧
    findKey "admin" (update_user_status stAuth "admin" false).2.users =
      some { adminUser with is_active := false } :=
  C6_amended_admin_protection stAuth adminUser (by decide)

/-- C3 code bug: creating an account with initial deposit 50 for an existing
customer yields balance 100, not 50 — the constructor already starts the
balance at `initial_deposit` and the subsequent `deposit(initial_deposit)`
adds it a second time.  The single "Initial deposit" transaction carries
amount 50 but `balance_after` 100. -/
theorem C3_code_bug_initial_deposit_doubled :
    ((stC.create_account "c1" "savings" 50 "x1" "t1").toOption.map
        (fun r => (r.2.balance,
                   r.2.transactions.map Transaction.amount,
                   r.2.transactions.map Transaction.balance_after,
                   r.2.transactions.map Transaction.description,
                   r.2.transactions.map Transaction.transaction_type)))
      = some (100, [50], [100], ["Initial deposit"], ["deposit"]) := by
  norm_num [stC, BankState.create_account, Account.deposit, findKey, updMap,
    zeroPad, sampleCustomer]
  exact ⟨_, _, rfl, rfl, rfl, rfl, rfl, rfl⟩

/-- C8 counterexample: on an account with one transaction,
`get_transaction_history(limit=0)` returns the full list (Python `0` is
falsy in `transactions[:limit] if limit else transactions`), so the result
has 1 entry, not `min 0 1 = 0` as the claim requires. -/
theorem C8_counterexample_limit_zero_returns_all :
    (acctOneTx.get_transaction_history (some 0)).length = 1 ∧
    acctOneTx.transactions.length = 1 ∧
    (acctOneTx.get_transaction_history (some 0)).length ≠
      min 0 acctOneTx.transactions.length := by
  decide

/-- C8 amended: the history is always the stable descending-by-timestamp
sort of the account's transactions (a permutation of them, sorted under
`tsGe`); a POSITIVE limit truncates to the first `n` of the sorted list,
giving `min n total` entries; but limit `0` is falsy in Python and behaves
like no limit, returning the full sorted list. -/
theorem C8_amended_history_sorted_truncated (a : Account) :
    (a.get_transaction_history none).Perm a.transactions ∧
    List.Sorted tsGe (a.get_transaction_history none) ∧
    a.get_transaction_history (some 0) = a.get_transaction_history none ∧
    (∀ n : Nat, n ≠ 0 →
      a.get_transaction_history (some n) =
        (a.get_transaction_history none).take n) ∧
    (∀ n : Nat, n ≠ 0 →
      (a.get_transaction_history (some n)).length =
        min n a.transactions.length) := by
  have hperm : (List.insertionSort tsGe a.transactions).Perm a.transactions :=
    List.perm_insertionSort tsGe a.transactions
  refine ⟨?_, ?_, ?_, ?_, ?_⟩
  · simp only [Account.get_transaction_history, limitTruthy, if_false,
      Bool.false_eq_true]
    exact hperm
  · simp only [Account.get_transaction_history, limitTruthy, if_false,
      Bool.false_eq_true]
    exact List.sorted_insertionSort tsGe a.transactions
  · simp [Account.get_transaction_history, limitTruthy]
  · intro n hn
    simp [Account.get_transaction_history, limitTruthy, hn]
  · intro n hn
    simp only [Account.get_transaction_history, limitTruthy]
    rw [if_pos (by simp [hn]), List.length_take, hperm.length_eq]
    rfl

/-- C8 amended witness: the two-transaction account, with limit 1 and
limit 0. -/
theorem C8_amended_history_sorted_truncated_witness :
    (acctTwoTx.get_transaction_history (some 1)).length =
      min 1 acctTwoTx.transactions.length ∧
    acctTwoTx.get_transaction_history (some 0) =
      acctTwoTx.get_transaction_history none ∧
    List.Sorted tsGe (acctTwoTx.get_transaction_history none) := by
  obtain ⟨h₁, h₂, h₃, h₄, h₅⟩ := C8_amended_history_sorted_truncated acctTwoTx
  exact ⟨h₅ 1 (by decide), h₃, h₂⟩

theorem findKey_some_mem (k : String) (m : List (String × α)) (v : α)
    (h : findKey k m = some v) : (k, v) ∈ m := by
  induction m with
  | nil => simp [findKey] at h
  | cons hd tl ih =>
    obtain ⟨k₂, v₂⟩ := hd
    by_cases hk : k₂ = k
    · subst hk
      simp only [findKey, eq_self_iff_true, if_true, ite_true,
        Option.some.injEq] at h
      subst h
      exact List.mem_cons_self _ _
    · simp only [findKey, if_neg hk] at h
      exact List.mem_cons_of_mem _ (ih h)

/-- Any state predicate preserved by every admissible single step is
preserved by a whole successful run. -/
theorem runOps_preserves (P : BankState → Prop) (Q : Op → Prop)
    (hpres : ∀ s s₂ op, Q op → P s → step s op = .ok s₂ → P s₂) :
    ∀ ops s s₂, (∀ op ∈ ops, Q op) → P s → runOps s ops = .ok s₂ → P s₂ := by
  intro ops
  induction ops with
  | nil =>
    intro s s₂ _ hs hrun
    simp only [runOps, Except.ok.injEq] at hrun
    exact hrun ▸ hs
  | cons op ops ih =>
    intro s s₂ hall hs hrun
    simp only [runOps] at hrun
    cases hstep : step s op with
    | error e => rw [hstep] at hrun; exact absurd hrun (by simp)
    | ok s₁ =>
      rw [hstep] at hrun
      exact ih s₁ s₂ (fun o ho => hall o (List.mem_cons_of_mem _ ho))
        (hpres s s₁ op (hall op (List.mem_cons_self _ _)) hs hstep) hrun

/-- A single successful step whose transfer (if any) has distinct endpoints
preserves the last-transaction/balance consistency invariant. -/
theorem step_preserves_ledgerConsistent (s₀ s s₂ : BankState) (op : Op)
    (hop : op.distinctTransfer) (hs : ledgerConsistentFrom s₀ s)
    (hstep : step s op = .ok s₂) : ledgerConsistentFrom s₀ s₂ := by
  cases op with
  | deposit accountId txId now amount description =>
    simp only [step] at hstep
    split at hstep
    · exact absurd hstep (by simp)
    · rename_i a hfa
      split at hstep
      · exact absurd hstep (by simp)
      · rename_i a₂ t heq
        simp only [Except.ok.injEq] at hstep
        subst hstep
        unfold Account.deposit at heq
        by_cases hamt : amount ≤ 0
        · rw [if_pos hamt] at heq; exact absurd heq (by simp)
        · rw [if_neg hamt] at heq
          simp only [Except.ok.injEq, Prod.mk.injEq] at heq
          obtain ⟨ha₂, ht⟩ := heq
          subst ha₂
          intro id b hfind
          rw [findKey_updMap] at hfind
          by_cases hid : accountId = id
          · rw [if_pos hid] at hfind
            cases hfind
            exact Or.inl ⟨_, getLast?_append_singleton _ _, rfl⟩
          · rw [if_neg hid] at hfind
            exact hs id b hfind
  | withdraw accountId txId now amount description =>
    simp only [step] at hstep
    split at hstep
    · exact absurd hstep (by simp)
    · rename_i a hfa
      split at hstep
      · exact absurd hstep (by simp)
      · rename_i a₂ t heq
        simp only [Except.ok.injEq] at hstep
        subst hstep
        unfold Account.withdraw at heq
        by_cases hamt : amount ≤ 0
        · rw [if_pos hamt] at heq; exact absurd heq (by simp)
        · rw [if_neg hamt] at heq
          by_cases hbal : a.balance < amount
          · rw [if_pos hbal] at heq; exact absurd heq (by simp)
          · rw [if_neg hbal] at heq
            simp only [Except.ok.injEq, Prod.mk.injEq] at heq
            obtain ⟨ha₂, ht⟩ := heq
            subst ha₂
            intro id b hfind
            rw [findKey_updMap] at hfind
            by_cases hid : accountId = id
            · rw [if_pos hid] at hfind
              cases hfind
              exact Or.inl ⟨_, getLast?_append_singleton _ _, rfl⟩
            · rw [if_neg hid] at hfind
              exact hs id b hfind
  | transfer fromId toId amount description txId₁ txId₂ now =>
    have hne : fromId ≠ toId := hop
    simp only [step] at hstep
    split at hstep
    · exact absurd hstep (by simp)
    · rename_i s₁ ftx ttx heq
      simp only [Except.ok.injEq] at hstep
      subst hstep
      unfold BankState.transfer_funds at heq
      split at heq
      · exact absurd heq (by simp)
      · exact absurd heq (by simp)
      · rename_i fa ta hfa hta
        by_cases hbal : fa.balance < amount
        · rw [if_pos hbal] at heq; exact absurd heq (by simp)
        · rw [if_neg hbal] at heq
          simp only [if_neg hne, Except.ok.injEq, Prod.mk.injEq] at heq
          obtain ⟨hs₁, hftx, httx⟩ := heq
          subst hs₁
          intro id b hfind
          rw [findKey_updMap] at hfind
          by_cases h₂ : toId = id
          · rw [if_pos h₂] at hfind
            cases hfind
            exact Or.inl ⟨_, getLast?_append_singleton _ _, rfl⟩
          · rw [if_neg h₂, findKey_updMap] at hfind
            by_cases h₁ : fromId = id
            · rw [if_pos h₁] at hfind
              cases hfind
              exact Or.inl ⟨_, getLast?_append_singleton _ _, rfl⟩
            · rw [if_neg h₁] at hfind
              exact hs id b hfind

/-- C1 counterexample: a self-transfer of 50 on an account with balance 100
succeeds (the sufficiency check passes and nothing forbids `from == to`),
leaves the balance at 100, but appends a final `transfer_in` transaction
whose `balance_after` is 150 — the claimed invariant fails. -/
theorem C1_counterexample_self_transfer :
    ∃ s₂ a, step stA (.transfer "A" "A" 50 "d" "x1" "x2" "t1") = .ok s₂ ∧
      findKey "A" s₂.accounts = some a ∧
      a.balance = 100 ∧
      (a.transactions.getLast?).map Transaction.balance_after = some 150 ∧
      ∀ t, a.transactions.getLast? = some t → a.balance ≠ t.balance_after := by
  refine ⟨_, _, rfl, rfl, ?_, ?_, ?_⟩
  · norm_num [acctA]
  · norm_num [acctA]
  · intro t ht
    simp only [acctA, List.nil_append, List.getLast?, Option.some.injEq] at ht
    subst ht
    norm_num [acctA]

/-- C1 amended: after any successful run of deposits, withdrawals and
transfers in which every transfer has DISTINCT source and destination ids,
starting from accounts with empty transaction logs, each stored account
either has its balance equal to the `balance_after` of the last appended
transaction, or still has an empty log and its creation balance.  (The
unrestricted claim fails for self-transfers, see the counterexample.) -/
theorem C1_amended_balance_matches_last_tx (s₀ s : BankState) (ops : List Op)
    (h₀ : ∀ kv ∈ s₀.accounts, kv.2.transactions = ([] : List Transaction))
    (hsafe : ∀ op ∈ ops, op.distinctTransfer)
    (hrun : runOps s₀ ops = .ok s) :
    ledgerConsistentFrom s₀ s := by
  refine runOps_preserves (ledgerConsistentFrom s₀) Op.distinctTransfer
    (fun s s₂ op => step_preserves_ledgerConsistent s₀ s s₂ op)
    ops s₀ s hsafe ?_ hrun
  intro id a hfind
  exact Or.inr ⟨h₀ (id, a) (findKey_some_mem _ _ _ hfind), a, hfind, rfl⟩

/-- C1 witness: one transfer of 30 from `A` to `B` in the concrete
two-account state with empty logs. -/
theorem C1_amended_balance_matches_last_tx_witness :
    ∃ s, runOps stAB [.transfer "A" "B" 30 "d" "x1" "x2" "t1"] = .ok s ∧
      ledgerConsistentFrom stAB s := by
  refine ⟨_, rfl, ?_⟩
  exact C1_amended_balance_matches_last_tx stAB _
    [.transfer "A" "B" 30 "d" "x1" "x2" "t1"] (by decide) (by decide) rfl

/-- A single successful step whose transfer (if any) has a non-negative
amount preserves non-negativity of all balances. -/
theorem step_preserves_nonNegBalances (s s₂ : BankState) (op : Op)
    (hop : op.nonNegAmount) (hs : nonNegBalances s)
    (hstep : step s op = .ok s₂) : nonNegBalances s₂ := by
  cases op with
  | deposit accountId txId now amount description =>
    simp only [step] at hstep
    split at hstep
    · exact absurd hstep (by simp)
    · rename_i a hfa
      split at hstep
      · exact absurd hstep (by simp)
      · rename_i a₂ t heq
        simp only [Except.ok.injEq] at hstep
        subst hstep
        unfold Account.deposit at heq
        by_cases hamt : amount ≤ 0
        · rw [if_pos hamt] at heq; exact absurd heq (by simp)
        · rw [if_neg hamt] at heq
          simp only [Except.ok.injEq, Prod.mk.injEq] at heq
          obtain ⟨ha₂, ht⟩ := heq
          subst ha₂
          intro id b hfind
          rw [findKey_updMap] at hfind
          by_cases hid : accountId = id
          · rw [if_pos hid] at hfind
            cases hfind
            exact add_nonneg (hs accountId a hfa) (le_of_lt (not_le.mp hamt))
          · rw [if_neg hid] at hfind
            exact hs id b hfind
  | withdraw accountId txId now amount description =>
    simp only [step] at hstep
    split at hstep
    · exact absurd hstep (by simp)
    · rename_i a hfa
      split at hstep
      · exact absurd hstep (by simp)
      · rename_i a₂ t heq
        simp only [Except.ok.injEq] at hstep
        subst hstep
        unfold Account.withdraw at heq
        by_cases hamt : amount ≤ 0
        · rw [if_pos hamt] at heq; exact absurd heq (by simp)
        · rw [if_neg hamt] at heq
          by_cases hbal : a.balance < amount
          · rw [if_pos hbal] at heq; exact absurd heq (by simp)
          · rw [if_neg hbal] at heq
            simp only [Except.ok.injEq, Prod.mk.injEq] at heq
            obtain ⟨ha₂, ht⟩ := heq
            subst ha₂
            intro id b hfind
            rw [findKey_updMap] at hfind
            by_cases hid : accountId = id
            · rw [if_pos hid] at hfind
              cases hfind
              exact sub_nonneg.mpr (not_lt.mp hbal)
            · rw [if_neg hid] at hfind
              exact hs id b hfind
  | transfer fromId toId amount description txId₁ txId₂ now =>
    have hamt : (0 : ℚ) ≤ amount := hop
    simp only [step] at hstep
    split at hstep
    · exact absurd hstep (by simp)
    · rename_i s₁ ftx ttx heq
      simp only [Except.ok.injEq] at hstep
      subst hstep
      unfold BankState.transfer_funds at heq
      split at heq
      · exact absurd heq (by simp)
      · exact absurd heq (by simp)
      · rename_i fa ta hfa hta
        by_cases hbal : fa.balance < amount
        · rw [if_pos hbal] at heq; exact absurd heq (by simp)
        · rw [if_neg hbal] at heq
          by_cases halias : fromId = toId
          · simp only [if_pos halias, Except.ok.injEq, Prod.mk.injEq] at heq
            obtain ⟨hs₁, hftx, httx⟩ := heq
            subst hs₁
            intro id b hfind
            rw [findKey_updMap] at hfind
            by_cases hid : fromId = id
            · rw [if_pos hid] at hfind
              cases hfind
              have hcancel : (0 : ℚ) ≤ fa.balance - amount + amount := by
                have h := hs fromId fa hfa
                linarith
              exact hcancel
            · rw [if_neg hid] at hfind
              exact hs id b hfind
          · simp only [if_neg halias, Except.ok.injEq, Prod.mk.injEq] at heq
            obtain ⟨hs₁, hftx, httx⟩ := heq
            subst hs₁
            intro id b hfind
            rw [findKey_updMap] at hfind
            by_cases h₂ : toId = id
            · rw [if_pos h₂] at hfind
              cases hfind
              exact add_nonneg (hs toId ta hta) hamt
            · rw [if_neg h₂, findKey_updMap] at hfind
              by_cases h₁ : fromId = id
              · rw [if_pos h₁] at hfind
                cases hfind
                exact sub_nonneg.mpr (not_lt.mp hbal)
              · rw [if_neg h₁] at hfind
                exact hs id b hfind

/-- C4 counterexample: `transfer_funds` never validates the amount, so a
transfer of -10 from `A` (balance 100) to `B` (balance 0) passes the
sufficiency check (100 < -10 is false) and leaves `B` with balance -10 — a
negative balance is reachable, contrary to the claim. -/
theorem C4_counterexample_negative_transfer :
    ∃ s₂ b, step stAB (.transfer "A" "B" (-10) "d" "x1" "x2" "t1") = .ok s₂ ∧
      findKey "B" s₂.accounts = some b ∧ b.balance < 0 := by
  refine ⟨_, _, rfl, rfl, ?_⟩
  norm_num [acctB]

/-- C4 amended: if every transfer in the run carries a NON-NEGATIVE amount
(deposit and withdraw validate their own amounts, transfer does not), then
from a state of non-negative balances every successful run again reaches only
non-negative balances.  (The unrestricted claim fails for negative transfer
amounts, see the counterexample.) -/
theorem C4_amended_balances_nonneg (s₀ s : BankState) (ops : List Op)
    (h₀ : ∀ kv ∈ s₀.accounts, (0 : ℚ) ≤ kv.2.balance)
    (hamt : ∀ op ∈ ops, op.nonNegAmount)
    (hrun : runOps s₀ ops = .ok s) :
    nonNegBalances s := by
  refine runOps_preserves nonNegBalances Op.nonNegAmount
    step_preserves_nonNegBalances ops s₀ s hamt ?_ hrun
  intro id a hfind
  exact h₀ (id, a) (findKey_some_mem _ _ _ hfind)

/-- C4 witness: one non-negative transfer on the concrete two-account state;
hypotheses discharged by computation. -/
theorem C4_amended_balances_nonneg_witness :
    ∃ s, runOps stAB [.transfer "A" "B" 30 "d2" "x1" "x2" "t1"] = .ok s ∧
      nonNegBalances s := by
  refine ⟨_, rfl, ?_⟩
  exact C4_amended_balances_nonneg stAB _
    [.transfer "A" "B" 30 "d2" "x1" "x2" "t1"] (by decide) (by decide) rfl

theorem tx_from_to_dict (now : String) (t : Transaction)
    (h : t.timestamp ≠ "") : Transaction.from_dict now t.to_dict = t := by
  simp [Transaction.from_dict, Transaction.to_dict, h]

theorem tx_list_roundtrip (now : String) (l : List Transaction)
    (h : ∀ t ∈ l, t.timestamp ≠ "") :
    (l.map Transaction.to_dict).map (Transaction.from_dict now) = l := by
  induction l with
  | nil => rfl
  | cons hd tl ih =>
    simp only [List.map_cons, List.cons.injEq]
    exact ⟨tx_from_to_dict now hd (h hd (List.mem_cons_self _ _)),
      ih (fun t ht => h t (List.mem_cons_of_mem _ ht))⟩

theorem customer_from_to_dict (now : String) (c : Customer)
    (h : c.created_date ≠ "") : Customer.from_dict now c.to_dict = c := by
  simp [Customer.from_dict, Customer.to_dict, h]

theorem account_from_to_dict (now : String) (a : Account)
    (h : a.created_date ≠ "") (ht : ∀ t ∈ a.transactions, t.timestamp ≠ "") :
    Account.from_dict now a.to_dict = a := by
  simp only [Account.from_dict, Account.to_dict, if_neg h]
  rw [tx_list_roundtrip now a.transactions ht]

theorem foldl_updMap_append (l : List (String × α)) :
    ∀ acc, (∀ kv ∈ l, findKey kv.1 acc = none) →
    (l.map Prod.fst).Nodup →
    l.foldl (fun m kv => updMap m kv.1 kv.2) acc = acc ++ l := by
  induction l with
  | nil => intro acc _ _; simp
  | cons hd tl ih =>
    intro acc hacc hnd
    simp only [List.foldl_cons]
    rw [updMap_of_findKey_none acc hd.1 hd.2 (hacc hd (List.mem_cons_self _ _))]
    rw [List.map_cons, List.nodup_cons] at hnd
    rw [ih (acc ++ [(hd.1, hd.2)]) ?_ hnd.2]
    · simp
    · intro kv hkv
      rw [findKey_append, hacc kv (List.mem_cons_of_mem _ hkv)]
      have hne : hd.1 ≠ kv.1 :=
        fun hEq => hnd.1 (hEq ▸ List.mem_map_of_mem Prod.fst hkv)
      simp [findKey, hne]

theorem loadData_customers_eq (now : String) (l : List (String × Customer)) :
    ∀ acc, (∀ kv ∈ l, kv.1 = kv.2.customer_id ∧ kv.2.created_date ≠ "") →
    (l.map (fun kv => kv.2.to_dict)).foldl
        (fun m d => let c := Customer.from_dict now d; updMap m c.customer_id c)
        acc
      = l.foldl (fun m kv => updMap m kv.1 kv.2) acc := by
  induction l with
  | nil => intro acc _; rfl
  | cons hd tl ih =>
    intro acc hk
    obtain ⟨hk₁, hk₂⟩ := hk hd (List.mem_cons_self _ _)
    simp only [List.map_cons, List.foldl_cons]
    rw [customer_from_to_dict now hd.2 hk₂, ← hk₁]
    exact ih _ (fun kv h => hk kv (List.mem_cons_of_mem _ h))

theorem loadData_accounts_eq (now : String) (l : List (String × Account)) :
    ∀ acc, (∀ kv ∈ l, kv.1 = kv.2.account_id ∧ kv.2.created_date ≠ "" ∧
      ∀ t ∈ kv.2.transactions, t.timestamp ≠ "") →
    (l.map (fun kv => kv.2.to_dict)).foldl
        (fun m d => let a := Account.from_dict now d; updMap m a.account_id a)
        acc
      = l.foldl (fun m kv => updMap m kv.1 kv.2) acc := by
  induction l with
  | nil => intro acc _; rfl
  | cons hd tl ih =>
    intro acc hk
    obtain ⟨hk₁, hk₂, hk₃⟩ := hk hd (List.mem_cons_self _ _)
    simp only [List.map_cons, List.foldl_cons]
    rw [account_from_to_dict now hd.2 hk₂ hk₃, ← hk₁]
    exact ih _ (fun kv h => hk kv (List.mem_cons_of_mem _ h))

/-- C9: serialization is lossless.  For any store whose dictionary keys agree
with the stored entities' own ids, whose keys are unique (both invariants of
how `create_customer` / `create_account` populate the dicts), and whose
timestamps are non-empty (ISO-8601 strings are never empty; an empty string
would be falsy and replaced by the current time in the constructors),
`_load_data` applied to the `_save_data` document rebuilds exactly the same
customers and accounts, embedded transaction lists included. -/
theorem C9_save_load_roundtrip (now : String) (s : BankState)
    (hc : ∀ kv ∈ s.customers, kv.1 = kv.2.customer_id ∧
      kv.2.created_date ≠ "")
    (ha : ∀ kv ∈ s.accounts, kv.1 = kv.2.account_id ∧
      kv.2.created_date ≠ "" ∧ ∀ t ∈ kv.2.transactions, t.timestamp ≠ "")
    (hnc : (s.customers.map Prod.fst).Nodup)
    (hna : (s.accounts.map Prod.fst).Nodup) :
    loadData now (saveData s) = s := by
  obtain ⟨cs, as⟩ := s
  simp only [loadData, saveData]
  have h₁ := loadData_customers_eq now cs [] hc
  have h₂ := loadData_accounts_eq now as [] ha
  rw [h₁, h₂, foldl_updMap_append cs [] (fun kv _ => rfl) hnc,
    foldl_updMap_append as [] (fun kv _ => rfl) hna]
  simp

/-- C9 witness: the concrete store with one customer and two accounts, one
carrying a transaction. -/
theorem C9_save_load_roundtrip_witness :
    loadData "2024-06-01T00:00:00" (saveData stFull) = stFull :=
  C9_save_load_roundtrip "2024-06-01T00:00:00" stFull
    (by decide) (by decide) (by decide) (by decide)

end Bank
